import Mathlib

/-!
Shallow embedding of the LC-MS Orbitrap simulator's acquisition engine
(`src/rust/lc-ms-simulator/src/simulator.rs` and `service.rs`).

Modelling conventions:
* `f64` values are modelled as `ℚ`; decimal literals of the source become the
  corresponding exact rationals (`0.95 ↦ 19/20`, `1.003355 ↦ 1003355/1000000`,
  `0.5/60.0 ↦ 1/120`, `1e6 ↦ 1000000`, ...).
* The `StdRng` stream is modelled by an oracle: four countable families of
  draw outcomes indexed by the position of the draw in the consumption order.
  Each `rand` call consumes exactly one index.  `gen_range` on an empty range
  panics in `rand`; panics are modelled by `Option.none` propagating.
* Wall-clock fields (`timestamp_ms`) and constant strings (`analyzer`,
  `trailer_extra`) are omitted from the record: no claim mentions them and
  they have no RNG-dependent behaviour.
-/

/-- Outcome streams standing for the `StdRng` pseudo-random generator.
`unif k` is the k-th raw uniform draw (interpreted in `[0,1)` via `fract01`),
`bern k` the k-th `gen_bool` outcome, `nat k` the k-th raw integer draw and
`norm k` the k-th raw standard-normal sample. -/
structure Oracle where
  unif : ℕ → ℚ
  bern : ℕ → Bool
  nat : ℕ → ℕ
  norm : ℕ → ℚ

/-- RNG state: the oracle plus the index of the next draw. -/
structure RState where
  gen : Oracle
  idx : ℕ

/-- Advance the RNG by one consumed draw. -/
def RState.next (s : RState) : RState :=
  { gen := s.gen, idx := s.idx + 1 }

/-- Fractional part, mapping an arbitrary raw draw into `[0, 1)`. -/
def fract01 (q : ℚ) : ℚ :=
  q - (⌊q⌋ : ℚ)

/-- Model of `rng.gen_range(lo..hi)` on floats: uniform in `[lo, hi)`.
`rand` panics when the range is empty (`lo ≥ hi`), modelled by `none`. -/
def gen_range (lo hi : ℚ) (s : RState) : Option (ℚ × RState) :=
  if lo < hi then
    some (lo + fract01 (s.gen.unif s.idx) * (hi - lo), s.next)
  else
    none

/-- Model of `rng.gen_bool(p)`: panics when `p ∉ [0,1]`, else an oracle draw. -/
def gen_bool (p : ℚ) (s : RState) : Option (Bool × RState) :=
  if 0 ≤ p ∧ p ≤ 1 then some (s.gen.bern s.idx, s.next) else none

/-- Model of `rng.gen_range(lo..hi)` on `usize`: panics when `lo ≥ hi`. -/
def gen_range_nat (lo hi : ℕ) (s : RState) : Option (ℕ × RState) :=
  if lo < hi then some (lo + s.gen.nat s.idx % (hi - lo), s.next) else none

/-- Model of `rng.gen_range(lo..=hi)` (inclusive) on integers. -/
def gen_range_inclusive (lo hi : ℕ) (s : RState) : Option (ℕ × RState) :=
  if lo ≤ hi then some (lo + s.gen.nat s.idx % (hi - lo + 1), s.next) else none

/-- Model of sampling `Normal(0, sigma)` once: `sigma` scales a raw
standard-normal oracle draw.  (`Normal::new` itself is modelled separately
by `normal_new_ok`, since it is constructed before the sampling loop.) -/
def normal_sample (sigma : ℚ) (s : RState) : ℚ × RState :=
  (sigma * s.gen.norm s.idx, s.next)

/-- Model of `Normal::new(0.0, sigma).unwrap()`: panics when `sigma < 0`. -/
def normal_new_ok (sigma : ℚ) : Bool :=
  decide (0 ≤ sigma)

/-- The isotope spacing constant `1.003355` of `generate_spectrum`. -/
def isotope_spacing : ℚ := 1003355 / 1000000

/-- The conditional isotope emission inside the base-peak loop
(simulator.rs lines 138-147): when the drawn Bool is true, draw the relative
intensity in `[lo, hi)` and emit the single isotope peak, else emit nothing. -/
def maybe_isotope (b : Bool) (mz base_intensity lo hi : ℚ) (s : RState) :
    Option (List (ℚ × ℚ) × RState) :=
  if b then
    match gen_range lo hi s with
    | none => none
    | some (r, s1) => some ([(mz, base_intensity * r)], s1)
  else
    some ([], s)

/-- One iteration of the base-peak loop of `generate_spectrum`
(simulator.rs lines 125-148): the monoisotopic peak, then with probability
0.8 an A+1 isotope at `+1.003355` with relative intensity in `[0.4, 0.8)`,
then with probability 0.6 an A+2 isotope at `+2×1.003355` with relative
intensity in `[0.1, 0.4)`.  Returns the emitted pairs in emission order. -/
def gen_base_peak (min_mz max_mz min_intensity max_intensity : ℚ) (s : RState) :
    Option (List (ℚ × ℚ) × RState) :=
  match gen_range min_mz max_mz s with
  | none => none
  | some (base_mz, s1) =>
    match gen_range min_intensity max_intensity s1 with
    | none => none
    | some (base_intensity, s2) =>
      match gen_bool (4/5) s2 with
      | none => none
      | some (b1, s3) =>
        match maybe_isotope b1 (base_mz + isotope_spacing) base_intensity (2/5) (4/5) s3 with
        | none => none
        | some (p1, s4) =>
          match gen_bool (3/5) s4 with
          | none => none
          | some (b2, s5) =>
            match maybe_isotope b2 (base_mz + 2 * isotope_spacing) base_intensity (1/10) (2/5) s5 with
            | none => none
            | some (p2, s6) =>
              some ((base_mz, base_intensity) :: (p1 ++ p2), s6)

/-- The base-peak loop of `generate_spectrum`, run `k` times. -/
def gen_base_peaks (k : ℕ) (min_mz max_mz min_intensity max_intensity : ℚ)
    (s : RState) : Option (List (ℚ × ℚ) × RState) :=
  match k with
  | 0 => some ([], s)
  | k + 1 =>
    match gen_base_peak min_mz max_mz min_intensity max_intensity s with
    | none => none
    | some (p, s1) =>
      match gen_base_peaks k min_mz max_mz min_intensity max_intensity s1 with
      | none => none
      | some (rest, s2) => some (p ++ rest, s2)

/-- One iteration of the noise loop (simulator.rs lines 154-161):
`mz ~ U(min_mz, max_mz)`, `intensity = min_intensity*0.01 + |Normal(0, min_intensity*0.1)|`. -/
def gen_noise_peak (min_mz max_mz min_intensity : ℚ) (s : RState) :
    Option ((ℚ × ℚ) × RState) :=
  match gen_range min_mz max_mz s with
  | none => none
  | some (mz, s1) =>
    let (nv, s2) := normal_sample (min_intensity * (1/10)) s1
    some ((mz, min_intensity * (1/100) + |nv|), s2)

/-- The noise loop of `generate_spectrum`, run `c` times. -/
def gen_noise_peaks (c : ℕ) (min_mz max_mz min_intensity : ℚ) (s : RState) :
    Option (List (ℚ × ℚ) × RState) :=
  match c with
  | 0 => some ([], s)
  | c + 1 =>
    match gen_noise_peak min_mz max_mz min_intensity s with
    | none => none
    | some (p, s1) =>
      match gen_noise_peaks c min_mz max_mz min_intensity s1 with
      | none => none
      | some (rest, s2) => some (p :: rest, s2)

/-- Key order on (m/z, intensity) pairs used by the final joint sort of
`generate_spectrum`: ascending by m/z, stable (mirrors `sort_by` over indices
with `partial_cmp`, which is a stable sort; `partial_cmp.unwrap` cannot panic
here since `ℚ` has no NaN, as f64 has none on the reachable inputs). -/
def mz_le (a b : ℚ × ℚ) : Prop := a.1 ≤ b.1

instance : DecidableRel mz_le := fun a b =>
  inferInstanceAs (Decidable (a.1 ≤ b.1))

instance : IsTotal (ℚ × ℚ) mz_le := ⟨fun a b => le_total a.1 b.1⟩

instance : IsTrans (ℚ × ℚ) mz_le := ⟨fun _ _ _ h1 h2 => le_trans h1 h2⟩

/-- `ScanGenerator::generate_spectrum` (simulator.rs lines 111-171):
base peaks with isotopic envelopes, then noise fill to `peak_count`,
then a stable joint sort by ascending m/z. -/
def generate_spectrum (peak_count : ℕ) (min_mz max_mz min_intensity max_intensity : ℚ)
    (s : RState) : Option ((List ℚ × List ℚ) × RState) :=
  match gen_base_peaks (peak_count / 5) min_mz max_mz min_intensity max_intensity s with
  | none => none
  | some (base, s1) =>
    if normal_new_ok (min_intensity * (1/10)) then
      match gen_noise_peaks (peak_count - base.length) min_mz max_mz min_intensity s1 with
      | none => none
      | some (noise, s2) =>
        let sorted := List.insertionSort mz_le (base ++ noise)
        some ((sorted.map Prod.fst, sorted.map Prod.snd), s2)
    else
      none

/-- `calculate_aggregates`'s loop (simulator.rs lines 210-216): scan the
intensities accumulating the TIC and the strict running maximum with its
first index. -/
def agg_loop : List ℚ → ℕ → ℕ → ℚ → ℚ → ℕ × ℚ × ℚ
  | [], _, max_idx, max_intensity, tic => (max_idx, max_intensity, tic)
  | v :: rest, i, max_idx, max_intensity, tic =>
    if max_intensity < v then
      agg_loop rest (i + 1) i v (tic + v)
    else
      agg_loop rest (i + 1) max_idx max_intensity (tic + v)

/-- `calculate_aggregates(mz, intensity)` (simulator.rs lines 201-219):
`(0,0,0)` on empty input, else `(mz[argmax], max intensity, Σ intensity)`
with the argmax taken at the first occurrence of the maximum.
(The source indexes `mz_values[max_idx]`, which is in bounds at every call
site since the vectors have equal length; `List.getD` with default `0`
stands for that indexing.) -/
def calculate_aggregates (mz_values intensity_values : List ℚ) : ℚ × ℚ × ℚ :=
  if mz_values.isEmpty || intensity_values.isEmpty then (0, 0, 0)
  else
    let r := agg_loop intensity_values 0 0 (intensity_values.headD 0) 0
    (mz_values.getD r.1 0, r.2.1, r.2.2)

/-- `ScanGenerator` (simulator.rs lines 10-14): scan counter, retention time
and the RNG. -/
structure ScanGenerator where
  scan_number : ℤ
  retention_time : ℚ
  random : RState

/-- `ScanGenerator::new()` (simulator.rs lines 17-23).  The source always
seeds from entropy (`StdRng::from_entropy()`); there is no seeded
constructor, so the construction takes the process's entropy source as an
oracle and ignores any configured seed. -/
def ScanGenerator.new (entropy : Oracle) : ScanGenerator :=
  { scan_number := 0, retention_time := 0, random := { gen := entropy, idx := 0 } }

/-- The subset of the `ScanMessage` record (proto) that the engine computes.
Wall-clock `timestamp_ms` and the constant strings `analyzer`/`trailer_extra`
are omitted; `fragmentation_type` keeps the proto enum integer. -/
structure ScanMessage where
  scan_number : ℤ
  ms_order : ℕ
  retention_time : ℚ
  mz_values : List ℚ
  intensity_values : List ℚ
  base_peak_mz : ℚ
  base_peak_intensity : ℚ
  total_ion_current : ℚ
  precursor_mass : Option ℚ
  precursor_charge : Option ℕ
  precursor_intensity : Option ℚ
  isolation_width : Option ℚ
  collision_energy : Option ℚ
  fragmentation_type : ℕ
  resolution_at_mz200 : ℚ
  mass_accuracy_ppm : ℚ
deriving DecidableEq, Repr

/-- `ScanGenerator::generate_ms1` (simulator.rs lines 26-63): bump the scan
counter, pick the peak count (override or uniform in `[500, 2000)`), build
the spectrum in `[min_mz, max_mz)` with intensities in `[1e6, 1e8)`, compute
aggregates, stamp the MS1 fields with the CURRENT retention time, then
advance the retention time by `0.5/60` minutes. -/
def generate_ms1 (g : ScanGenerator) (min_mz max_mz : ℚ) (peak_count_override : Option ℕ) :
    Option (ScanMessage × ScanGenerator) :=
  let sn := g.scan_number + 1
  match (match peak_count_override with
         | some n => some (n, g.random)
         | none => gen_range_nat 500 2000 g.random) with
  | none => none
  | some (peak_count, s0) =>
    match generate_spectrum peak_count min_mz max_mz 1000000 100000000 s0 with
    | none => none
    | some ((mz_values, intensity_values), s1) =>
      let a := calculate_aggregates mz_values intensity_values
      some
        ({ scan_number := sn
           ms_order := 1
           retention_time := g.retention_time
           mz_values := mz_values
           intensity_values := intensity_values
           base_peak_mz := a.1
           base_peak_intensity := a.2.1
           total_ion_current := a.2.2
           precursor_mass := none
           precursor_charge := none
           precursor_intensity := none
           isolation_width := none
           collision_energy := none
           fragmentation_type := 0
           resolution_at_mz200 := 120000
           mass_accuracy_ppm := 3 },
         { scan_number := sn
           retention_time := g.retention_time + 1/120
           random := s1 })

/-- `ScanGenerator::generate_ms2` (simulator.rs lines 66-108): bump the scan
counter, pick the peak count (override or uniform in `[50, 300)`), build the
spectrum in `[100, precursor_mz * 0.95)` with intensities in
`[precursor_intensity * 0.01, precursor_intensity * 0.5)`, compute aggregates,
draw a charge in `{2,3,4}`, and stamp the MS2 fields with the CURRENT
retention time (which `generate_ms1` already advanced): retention time is not
advanced here. -/
def generate_ms2 (g : ScanGenerator) (precursor_mz precursor_intensity : ℚ)
    (peak_count_override : Option ℕ) : Option (ScanMessage × ScanGenerator) :=
  let sn := g.scan_number + 1
  match (match peak_count_override with
         | some n => some (n, g.random)
         | none => gen_range_nat 50 300 g.random) with
  | none => none
  | some (peak_count, s0) =>
    match generate_spectrum peak_count 100 (precursor_mz * (19/20))
        (precursor_intensity * (1/100)) (precursor_intensity * (1/2)) s0 with
    | none => none
    | some ((mz_values, intensity_values), s1) =>
      let a := calculate_aggregates mz_values intensity_values
      match gen_range_inclusive 2 4 s1 with
      | none => none
      | some (charge, s2) =>
        some
          ({ scan_number := sn
             ms_order := 2
             retention_time := g.retention_time
             mz_values := mz_values
             intensity_values := intensity_values
             base_peak_mz := a.1
             base_peak_intensity := a.2.1
             total_ion_current := a.2.2
             precursor_mass := some precursor_mz
             precursor_charge := some charge
             precursor_intensity := some precursor_intensity
             isolation_width := some (8/5)
             collision_energy := some 30
             fragmentation_type := 1
             resolution_at_mz200 := 30000
             mass_accuracy_ppm := 5 },
           { scan_number := sn
             retention_time := g.retention_time
             random := s2 })

/-- Descending-intensity key order on `(index, intensity)` pairs used by
`select_precursor`'s stable sort (`b.1.partial_cmp(&a.1)`). -/
def intensity_ge (a b : ℕ × ℚ) : Prop := b.2 ≤ a.2

instance : DecidableRel intensity_ge := fun a b =>
  inferInstanceAs (Decidable (b.2 ≤ a.2))

instance : IsTotal (ℕ × ℚ) intensity_ge := ⟨fun a b => le_total b.2 a.2⟩

instance : IsTrans (ℕ × ℚ) intensity_ge := ⟨fun _ _ _ h1 h2 => le_trans h2 h1⟩

/-- `ScanGenerator::select_precursor` (simulator.rs lines 174-198): fallback
`(500.0, 1e6)` on an empty MS1; else stable-sort the enumerated intensities
descending, pick a uniform index among the top `min(len, 20)`, and return
that peak's (m/z, intensity).  The source's slice indexing is modelled with
`List.getD`/`List.get?`; a `get?` miss (impossible at reachable call sites,
an out-of-bounds panic in the source) propagates as `none`. -/
def select_precursor (g : ScanGenerator) (ms1_scan : ScanMessage) :
    Option ((ℚ × ℚ) × ScanGenerator) :=
  if ms1_scan.mz_values.isEmpty then
    some ((500, 1000000), g)
  else
    let intensity_indices :=
      List.insertionSort intensity_ge ms1_scan.intensity_values.enum
    let top_n := min intensity_indices.length 20
    match gen_range_nat 0 top_n g.random with
    | none => none
    | some (selected_idx, s1) =>
      let peak_idx := (intensity_indices.getD selected_idx (0, 0)).1
      match ms1_scan.mz_values.get? peak_idx, ms1_scan.intensity_values.get? peak_idx with
      | some mz, some iv =>
        some ((mz, iv), { g with random := s1 })
      | _, _ => none

/-- The `AcquisitionState` proto enum (service.rs lines 44-55). -/
inductive AcquisitionState where
  | Idle
  | Starting
  | Acquiring
  | Paused
  | Stopping
  | Completed
  | Faulted
deriving DecidableEq, Repr

/-- `SimulationParameters` (proto message).  Modelled from the spec: the
schema file `protos/simulator.proto` is not under `src/`; the field list and
defaults follow the spec's data model (spec section 3), and the subset
actually read by `run_acquisition` (`scan_rate`, `ms2_per_ms1`, `min_mz`,
`max_mz`, `ms1_peak_count`, `ms2_peak_count`) matches service.rs lines
71-88.  `random_seed` (spec: `0 ⇒ entropy-seeded; else deterministic`) is
present in the schema but never read by any code under `src/`. -/
structure SimulationParameters where
  scan_rate : ℚ := 0
  ms2_per_ms1 : ℤ := 0
  min_mz : ℚ := 0
  max_mz : ℚ := 0
  resolution : ℚ := 0
  noise_level : ℚ := 0
  random_seed : ℤ := 0
  ms1_peak_count : Option ℤ := none
  ms2_peak_count : Option ℤ := none
deriving DecidableEq, Repr

/-- Effective scan rate (service.rs line 71): positive value or default 2. -/
def effective_scan_rate (p : SimulationParameters) : ℚ :=
  if 0 < p.scan_rate then p.scan_rate else 2

/-- Effective MS2-per-MS1 count (service.rs line 72): the configured value
only when it is strictly positive, otherwise the default 4 — a configured
`0` is replaced by the default. -/
def effective_ms2_per_ms1 (p : SimulationParameters) : ℕ :=
  if 0 < p.ms2_per_ms1 then p.ms2_per_ms1.toNat else 4

/-- `scans_per_cycle` (service.rs line 73): one MS1 plus the MS2 count. -/
def scans_per_cycle (p : SimulationParameters) : ℕ :=
  1 + effective_ms2_per_ms1 p

/-- Effective m/z lower bound (service.rs line 84): positive value or 200. -/
def effective_min_mz (p : SimulationParameters) : ℚ :=
  if 0 < p.min_mz then p.min_mz else 200

/-- Effective m/z upper bound (service.rs line 85): positive value or 2000. -/
def effective_max_mz (p : SimulationParameters) : ℚ :=
  if 0 < p.max_mz then p.max_mz else 2000

/-- Effective MS1 peak-count override (service.rs line 87):
`params.ms1_peak_count.filter(|v| *v > 0)`. -/
def effective_ms1_peak_count (p : SimulationParameters) : Option ℕ :=
  match p.ms1_peak_count with
  | some v => if 0 < v then some v.toNat else none
  | none => none

/-- Effective MS2 peak-count override (service.rs line 88). -/
def effective_ms2_peak_count (p : SimulationParameters) : Option ℕ :=
  match p.ms2_peak_count with
  | some v => if 0 < v then some v.toNat else none
  | none => none

/-- The inner MS2 loop of one producer cycle (service.rs lines 160-182),
with the stop/cap re-checks not triggered: `m` times, select a precursor
from the cycle's MS1 scan and synthesize an MS2 scan from it. -/
def produce_ms2s (g : ScanGenerator) (ms1_scan : ScanMessage)
    (ms2_override : Option ℕ) : ℕ → Option (List ScanMessage × ScanGenerator)
  | 0 => some ([], g)
  | n + 1 =>
    match select_precursor g ms1_scan with
    | none => none
    | some ((precursor_mz, precursor_int), g1) =>
      match generate_ms2 g1 precursor_mz precursor_int ms2_override with
      | none => none
      | some (scan, g2) =>
        match produce_ms2s g2 ms1_scan ms2_override n with
        | none => none
        | some (rest, g3) => some (scan :: rest, g3)

/-- One producer cycle (service.rs lines 147-182) under the effective
parameters, with the stop/cap re-checks not triggered: one MS1 scan followed
by `effective_ms2_per_ms1 p` MS2 scans, each fed by `select_precursor` on
that MS1. -/
def produce_cycle (g : ScanGenerator) (p : SimulationParameters) :
    Option (List ScanMessage × ScanGenerator) :=
  match generate_ms1 g (effective_min_mz p) (effective_max_mz p)
      (effective_ms1_peak_count p) with
  | none => none
  | some (ms1_scan, g1) =>
    match produce_ms2s g1 ms1_scan (effective_ms2_peak_count p)
        (effective_ms2_per_ms1 p) with
    | none => none
    | some (rest, g2) => some (ms1_scan :: rest, g2)

/-- The first cycle of an acquisition run (service.rs lines 250-251 and
103-184): `start_acquisition` resets the generator with
`ScanGenerator::new()` — always entropy-seeded — and the spawned producer
then generates cycles.  The run is a function of the parameters AND the
process's entropy; the configured `random_seed` is never consulted. -/
def acquisition_first_cycle (entropy : Oracle) (p : SimulationParameters) :
    Option (List ScanMessage × ScanGenerator) :=
  produce_cycle (ScanGenerator.new entropy) p

/-- `StartAcquisitionRequest` (proto): optional parameters and caps. -/
structure StartAcquisitionRequest where
  simulation : Option SimulationParameters := none
  max_scans : Option ℤ := none
  max_duration_seconds : Option ℚ := none
deriving DecidableEq, Repr

/-- `StartAcquisitionResponse` (service.rs lines 236-240, 274-278).
`session_id = none` models the empty string; `error_message = some st`
models the string `"Cannot start acquisition in state st"` (the message
names the offending state), `none` the empty message. -/
structure StartAcquisitionResponse where
  success : Bool
  session_id : Option ℕ
  error_message : Option AcquisitionState
deriving DecidableEq, Repr

/-- `StopAcquisitionResponse` (service.rs lines 289-293). -/
structure StopAcquisitionResponse where
  success : Bool
  final_scan_count : ℤ
deriving DecidableEq, Repr

/-- The control-plane state of `SimulatorServiceImpl` (service.rs lines
18-26): the state atom, the cumulative scan counter, the session cell
(session ids abstracted to `ℕ`), plus whether a spawned producer task is
still running (implicit in the source: the task spawned at service.rs line
268 that has not yet executed its final `set_state(Completed)`). -/
structure ServiceState where
  state : AcquisitionState
  scan_count : ℤ
  session_id : Option ℕ
  producer_running : Bool
deriving DecidableEq, Repr

/-- `start_acquisition` (service.rs lines 230-279): reject in-band — reply
`success=false`, empty session id, message naming the current state, nothing
mutated — unless the state is `Idle` or `Completed`; on accept mint a fresh
session id, zero the scan counter, set `Starting`, reset the generator and
spawn the producer.  The request parameters are never inspected here (no
validation); they are only handed to the spawned task. -/
def start_acquisition (σ : ServiceState) (_req : StartAcquisitionRequest)
    (fresh : ℕ) : StartAcquisitionResponse × ServiceState :=
  if σ.state ≠ AcquisitionState.Idle ∧ σ.state ≠ AcquisitionState.Completed then
    ({ success := false, session_id := none, error_message := some σ.state }, σ)
  else
    ({ success := true, session_id := some fresh, error_message := none },
     { state := AcquisitionState.Starting
       scan_count := 0
       session_id := some fresh
       producer_running := true })

/-- `stop_acquisition` (service.rs lines 281-294): set `Stopping`
unconditionally and reply success with the current cumulative count. -/
def stop_acquisition (σ : ServiceState) : StopAcquisitionResponse × ServiceState :=
  ({ success := true, final_scan_count := σ.scan_count },
   { σ with state := AcquisitionState.Stopping })

/-- One interleaving step of the control plane and the producer task.
Handler steps are always enabled; producer steps require a running producer:
`producer_enter` is `set_state(Acquiring)` at service.rs line 101,
`producer_scan` a published scan (lines 156-157, 180-181), and
`producer_exit` the task's only exit path, `set_state(Completed)` at line
187.  `pause`/`resume`/`get_status`/`get_instrument_info`/`stream_scans`
mutate nothing (lines 195-228, 296-336). -/
inductive Step : ServiceState → ServiceState → Prop where
  | start (σ : ServiceState) (req : StartAcquisitionRequest) (fresh : ℕ) :
      Step σ (start_acquisition σ req fresh).2
  | stop (σ : ServiceState) : Step σ (stop_acquisition σ).2
  | read_only (σ : ServiceState) : Step σ σ
  | producer_enter (σ : ServiceState) (h : σ.producer_running = true) :
      Step σ { σ with state := AcquisitionState.Acquiring }
  | producer_scan (σ : ServiceState) (h : σ.producer_running = true) :
      Step σ { σ with scan_count := σ.scan_count + 1 }
  | producer_exit (σ : ServiceState) (h : σ.producer_running = true) :
      Step σ { σ with state := AcquisitionState.Completed, producer_running := false }

/-- The all-zeros entropy oracle (a concrete realizable draw sequence:
every uniform draw hits the low end of its range, every `gen_bool` is
false, every integer draw takes the least value, every normal sample is 0). -/
def oracle0 : Oracle :=
  { unif := fun _ => 0, bern := fun _ => false, nat := fun _ => 0, norm := fun _ => 0 }

/-- A second entropy oracle whose uniform draws land mid-range. -/
def oracle_half : Oracle :=
  { unif := fun _ => 1/2, bern := fun _ => false, nat := fun _ => 0, norm := fun _ => 0 }

/-- Evaluation helper: the fractional part of the zero draw. -/
theorem fract01_eval_zero : fract01 0 = 0 := by
  norm_num [fract01]

/-- Evaluation helper: the fractional part of the mid-range draw. -/
theorem fract01_eval_half : fract01 (1/2) = 1/2 := by
  norm_num [fract01]

/-- Parameters with an explicit nonzero seed, used to exercise the
determinism claim: `random_seed = 42`, valid m/z range, fixed peak counts
(the overrides keep the concrete traces small), one MS2 per MS1. -/
def params_seeded : SimulationParameters :=
  { min_mz := 200, max_mz := 2000, ms2_per_ms1 := 1, random_seed := 42,
    ms1_peak_count := some 5, ms2_peak_count := some 5 }

/-- Parameters with an inverted m/z range (`min_mz = 1000 > 500 = max_mz`). -/
def params_invalid_mz : SimulationParameters :=
  { min_mz := 1000, max_mz := 500 }

/-- Parameters with a low but spec-valid m/z lower bound (`50 < 2000`,
both positive; the instrument info itself advertises `min_mz = 50`). -/
def params_low_min_mz : SimulationParameters :=
  { min_mz := 50, max_mz := 2000, ms2_per_ms1 := 1,
    ms1_peak_count := some 5, ms2_peak_count := some 5 }

/-- Parameters that explicitly configure `ms2_per_ms1 = 0`. -/
def params_ms2_zero : SimulationParameters :=
  { min_mz := 200, max_mz := 2000, ms2_per_ms1 := 0,
    ms1_peak_count := some 5, ms2_peak_count := some 5 }

/-- Parameters for the m/z duplicate-collision trace: peak-count override 2
(so both peaks come from the noise stage) in the range `[100, 200)`. -/
def params_dup_mz : SimulationParameters :=
  { min_mz := 100, max_mz := 200, ms1_peak_count := some 2 }

/-- An empty start request. -/
def req_default : StartAcquisitionRequest := {}

/-- A start request carrying the inverted m/z range. -/
def req_invalid_mz : StartAcquisitionRequest :=
  { simulation := some params_invalid_mz }

/-- A start request carrying the low m/z lower bound. -/
def req_low_min_mz : StartAcquisitionRequest :=
  { simulation := some params_low_min_mz }

/-- The initial control-plane state: `Idle`, zero scans, no session. -/
def σ_idle : ServiceState :=
  { state := AcquisitionState.Idle, scan_count := 0, session_id := none,
    producer_running := false }

/-- A control-plane state mid-run: `Acquiring` with a live producer. -/
def σ_acquiring : ServiceState :=
  { state := AcquisitionState.Acquiring, scan_count := 7, session_id := some 1,
    producer_running := true }

/-- C4: whenever `start_acquisition` is called with the current state not in
{Idle, Completed}, it replies in-band with `success = false`, an empty
session id, and a message naming the current state, and the acquisition
state, session id, and scan count are left unchanged. -/
theorem start_rejected_outside_idle_completed (σ : ServiceState)
    (req : StartAcquisitionRequest) (fresh : ℕ)
    (h1 : σ.state ≠ AcquisitionState.Idle)
    (h2 : σ.state ≠ AcquisitionState.Completed) :
    (start_acquisition σ req fresh).1.success = false ∧
    (start_acquisition σ req fresh).1.session_id = none ∧
    (start_acquisition σ req fresh).1.error_message = some σ.state ∧
    (start_acquisition σ req fresh).2 = σ := by
  simp [start_acquisition, h1, h2]

/-- Witness for C4 at the concrete mid-run state. -/
theorem start_rejected_outside_idle_completed_witness :
    (start_acquisition σ_acquiring req_default 5).1.success = false ∧
    (start_acquisition σ_acquiring req_default 5).1.session_id = none ∧
    (start_acquisition σ_acquiring req_default 5).1.error_message =
      some AcquisitionState.Acquiring ∧
    (start_acquisition σ_acquiring req_default 5).2 = σ_acquiring :=
  start_rejected_outside_idle_completed σ_acquiring req_default 5
    (by decide) (by decide)

/-- C10: if `stop_acquisition` is invoked while no producer task is running
(state `Idle` or `Completed`), the state is set to `Stopping` and no
interleaving of handler calls and producer steps can ever leave `Stopping`
(only a running producer's exit path sets `Completed`), so every subsequent
`start_acquisition` is rejected and mutates nothing, for the remaining
lifetime of the process. -/
theorem stop_without_producer_bricks_service (σ : ServiceState)
    (hrun : σ.producer_running = false)
    (_hst : σ.state = AcquisitionState.Idle ∨ σ.state = AcquisitionState.Completed) :
    ∀ τ, Relation.ReflTransGen Step (stop_acquisition σ).2 τ →
      τ.state = AcquisitionState.Stopping ∧ τ.producer_running = false ∧
      ∀ req fresh, (start_acquisition τ req fresh).1.success = false ∧
        (start_acquisition τ req fresh).2 = τ := by
  have key : ∀ τ, Relation.ReflTransGen Step (stop_acquisition σ).2 τ →
      τ.state = AcquisitionState.Stopping ∧ τ.producer_running = false := by
    intro τ h
    induction h with
    | refl => exact ⟨rfl, hrun⟩
    | tail _hs hstep ih =>
      obtain ⟨ih1, ih2⟩ := ih
      cases hstep with
      | start req fresh =>
        constructor <;> simp [start_acquisition, ih1, ih2]
      | stop =>
        exact ⟨rfl, ih2⟩
      | read_only =>
        exact ⟨ih1, ih2⟩
      | producer_enter h' =>
        rw [ih2] at h'
        exact absurd h' (by simp)
      | producer_scan h' =>
        rw [ih2] at h'
        exact absurd h' (by simp)
      | producer_exit h' =>
        rw [ih2] at h'
        exact absurd h' (by simp)
  intro τ h
  obtain ⟨h1, h2⟩ := key τ h
  refine ⟨h1, h2, fun req fresh => ?_⟩
  constructor <;> simp [start_acquisition, h1]

/-- Witness for C10: from the concrete `Idle` state, the state right after
the stray stop is `Stopping` and a concrete restart attempt is rejected. -/
theorem stop_without_producer_bricks_service_witness :
    (stop_acquisition σ_idle).2.state = AcquisitionState.Stopping ∧
    (start_acquisition (stop_acquisition σ_idle).2 req_default 3).1.success = false := by
  have h := stop_without_producer_bricks_service σ_idle rfl (Or.inl rfl)
    (stop_acquisition σ_idle).2 Relation.ReflTransGen.refl
  exact ⟨h.1, (h.2.2 req_default 3).1⟩

/-- The produced-scan count of the MS2 loop equals its iteration count. -/
theorem produce_ms2s_length (ms1_scan : ScanMessage) (o : Option ℕ) :
    ∀ n g l g', produce_ms2s g ms1_scan o n = some (l, g') → l.length = n := by
  intro n
  induction n with
  | zero =>
    intro g l g' h
    simp only [produce_ms2s] at h
    obtain ⟨rfl, rfl⟩ := Prod.mk.injEq .. ▸ Option.some.inj h
    rfl
  | succ n ih =>
    intro g l g' h
    simp only [produce_ms2s] at h
    split at h
    · exact absurd h (by simp)
    · split at h
      · exact absurd h (by simp)
      · split at h
        · exact absurd h (by simp)
        · rename_i scan g2 rest g3 heq
          obtain ⟨rfl, rfl⟩ := Prod.mk.injEq .. ▸ Option.some.inj h
          simp [ih _ _ _ heq]

/-- Counterexample to C6: a start request that explicitly sets
`ms2_per_ms1 = 0` does not get MS1-only cycles; the producer replaces the 0
by the default 4, so `scans_per_cycle` is 5, not `1 + 0 = 1`. -/
theorem scans_per_cycle_zero_cex :
    params_ms2_zero.ms2_per_ms1 = 0 ∧
    scans_per_cycle params_ms2_zero = 5 ∧
    scans_per_cycle params_ms2_zero ≠ 1 := by
  refine ⟨rfl, rfl, by decide⟩

/-- C6 amended: the producer uses `scans_per_cycle = 1 + m` only when the
configured `ms2_per_ms1 = m` is strictly positive; any non-positive value —
including the explicit 0, which in the proto encoding is indistinguishable
from an absent field — is replaced by the default 4.  A cycle that runs to
completion is one MS1 scan followed by exactly `effective_ms2_per_ms1 p`
MS2 scans. -/
theorem scans_per_cycle_spec (p : SimulationParameters) :
    scans_per_cycle p = 1 + effective_ms2_per_ms1 p ∧
    (0 < p.ms2_per_ms1 → effective_ms2_per_ms1 p = p.ms2_per_ms1.toNat) ∧
    (p.ms2_per_ms1 ≤ 0 → effective_ms2_per_ms1 p = 4) ∧
    ∀ g scans, (produce_cycle g p).map Prod.fst = some scans →
      scans.length = scans_per_cycle p := by
  refine ⟨rfl, ?_, ?_, ?_⟩
  · intro h
    simp [effective_ms2_per_ms1, h]
  · intro h
    simp [effective_ms2_per_ms1, not_lt.mpr h]
  · intro g scans h
    obtain ⟨⟨l, g'⟩, hcy, hfst⟩ := Option.map_eq_some'.mp h
    simp only [produce_cycle] at hcy
    split at hcy
    next => exact absurd hcy (by simp)
    next ms1_scan g1 hms1 =>
      split at hcy
      next => exact absurd hcy (by simp)
      next rest g2 hms2 =>
        obtain ⟨rfl, rfl⟩ := Prod.mk.injEq .. ▸ Option.some.inj hcy
        simp only [← hfst, List.length_cons, scans_per_cycle]
        rw [produce_ms2s_length ms1_scan _ _ _ _ _ hms2]
        omega

set_option maxRecDepth 10000 in
/-- Witness for C6 amended: at the explicit-zero parameters the default 4
applies, and a concrete completed cycle (one MS2 per MS1 configured) has
`scans_per_cycle` scans. -/
theorem scans_per_cycle_spec_witness :
    effective_ms2_per_ms1 params_ms2_zero = 4 ∧
    (((produce_cycle (ScanGenerator.new oracle0) params_seeded).map
        Prod.fst).getD []).length = scans_per_cycle params_seeded := by
  refine ⟨(scans_per_cycle_spec params_ms2_zero).2.2.1 (by decide), ?_⟩
  exact (scans_per_cycle_spec params_seeded).2.2.2 (ScanGenerator.new oracle0) _
    (by norm_num [acquisition_first_cycle, produce_cycle, produce_ms2s, generate_ms1,
      generate_ms2, select_precursor, generate_spectrum, gen_base_peaks, gen_base_peak,
      gen_noise_peaks, gen_noise_peak, maybe_isotope, gen_range, gen_bool, gen_range_nat,
      gen_range_inclusive, normal_sample, normal_new_ok, calculate_aggregates, agg_loop,
      fract01_eval_zero, oracle0, RState.next, ScanGenerator.new, List.insertionSort,
      List.orderedInsert, mz_le, intensity_ge, List.enum, List.enumFrom,
      effective_min_mz, effective_max_mz, effective_ms1_peak_count,
      effective_ms2_peak_count, effective_ms2_per_ms1, params_seeded])

/-- `generate_ms1` stamps the scan with the generator's current retention
time and `ms_order = 1`, and advances the generator's retention time by
exactly `0.5/60` minutes. -/
theorem generate_ms1_fields (g : ScanGenerator) (mn mx : ℚ) (o : Option ℕ)
    (scan : ScanMessage) (g' : ScanGenerator)
    (h : generate_ms1 g mn mx o = some (scan, g')) :
    scan.ms_order = 1 ∧ scan.retention_time = g.retention_time ∧
    g'.retention_time = g.retention_time + 1/120 := by
  simp only [generate_ms1] at h
  split at h
  next => exact absurd h (by simp)
  next pc s0 hpc =>
    split at h
    next => exact absurd h (by simp)
    next mzl il s1 hspec =>
      obtain ⟨rfl, rfl⟩ := Prod.mk.injEq .. ▸ Option.some.inj h
      exact ⟨rfl, rfl, rfl⟩

/-- `select_precursor` never touches the scan counter or retention time. -/
theorem select_precursor_generator (g : ScanGenerator) (m : ScanMessage)
    (pr : ℚ × ℚ) (g' : ScanGenerator) (h : select_precursor g m = some (pr, g')) :
    g'.retention_time = g.retention_time ∧ g'.scan_number = g.scan_number := by
  simp only [select_precursor] at h
  split at h
  · obtain ⟨rfl, rfl⟩ := Prod.mk.injEq .. ▸ Option.some.inj h
    exact ⟨rfl, rfl⟩
  · split at h
    next => exact absurd h (by simp)
    next sel s1 hsel =>
      split at h
      next mz iv hmz hiv =>
        obtain ⟨rfl, rfl⟩ := Prod.mk.injEq .. ▸ Option.some.inj h
        exact ⟨rfl, rfl⟩
      next => exact absurd h (by simp)

/-- `generate_ms2` stamps the scan with the generator's current retention
time and `ms_order = 2`, and does not advance the retention time. -/
theorem generate_ms2_fields (g : ScanGenerator) (pmz pint : ℚ) (o : Option ℕ)
    (scan : ScanMessage) (g' : ScanGenerator)
    (h : generate_ms2 g pmz pint o = some (scan, g')) :
    scan.ms_order = 2 ∧ scan.retention_time = g.retention_time ∧
    g'.retention_time = g.retention_time := by
  simp only [generate_ms2] at h
  split at h
  next => exact absurd h (by simp)
  next pc s0 hpc =>
    split at h
    next => exact absurd h (by simp)
    next mzl il s1 hspec =>
      split at h
      next => exact absurd h (by simp)
      next charge s2 hch =>
        obtain ⟨rfl, rfl⟩ := Prod.mk.injEq .. ▸ Option.some.inj h
        exact ⟨rfl, rfl, rfl⟩

/-- Every scan emitted by the MS2 loop carries `ms_order = 2` and the
retention time the loop's generator started with. -/
theorem produce_ms2s_retention (ms1_scan : ScanMessage) (o : Option ℕ) :
    ∀ n g l g', produce_ms2s g ms1_scan o n = some (l, g') →
      ∀ s ∈ l, s.ms_order = 2 ∧ s.retention_time = g.retention_time := by
  intro n
  induction n with
  | zero =>
    intro g l g' h
    simp only [produce_ms2s] at h
    obtain ⟨rfl, rfl⟩ := Prod.mk.injEq .. ▸ Option.some.inj h
    intro s hs
    exact absurd hs (by simp)
  | succ n ih =>
    intro g l g' h
    simp only [produce_ms2s] at h
    split at h
    next => exact absurd h (by simp)
    next pmz pint g1 hsel =>
      split at h
      next => exact absurd h (by simp)
      next scan g2 hms2 =>
        split at h
        next => exact absurd h (by simp)
        next rest g3 hrest =>
          obtain ⟨rfl, rfl⟩ := Prod.mk.injEq .. ▸ Option.some.inj h
          intro s hs
          have hg1 := select_precursor_generator g ms1_scan _ _ hsel
          have hscan := generate_ms2_fields g1 pmz pint o scan g2 hms2
          rcases List.mem_cons.mp hs with rfl | hs'
          · exact ⟨hscan.1, by rw [hscan.2.1, hg1.1]⟩
          · have := ih g2 rest g3 hrest s hs'
            exact ⟨this.1, by rw [this.2, hscan.2.2, hg1.1]⟩

/-- Counterexample to C5: in the very first concrete cycle the MS1 scan is
stamped with retention time 0 but the cycle's MS2 scan is stamped with
`0.5/60 = 1/120`, because `generate_ms1` advances the retention time before
the cycle's MS2 scans are generated; the two retention times differ. -/
theorem ms2_retention_equal_cex :
    (acquisition_first_cycle oracle0 params_seeded).map
        (fun x => x.1.map (fun s => (s.ms_order, s.retention_time))) =
      some [(1, 0), (2, 1/120)] ∧ (1 : ℚ)/120 ≠ 0 := by
  constructor
  · norm_num [acquisition_first_cycle, produce_cycle, produce_ms2s, generate_ms1,
      generate_ms2, select_precursor, generate_spectrum, gen_base_peaks, gen_base_peak,
      gen_noise_peaks, gen_noise_peak, maybe_isotope, gen_range, gen_bool, gen_range_nat,
      gen_range_inclusive, normal_sample, normal_new_ok, calculate_aggregates, agg_loop,
      fract01_eval_zero, oracle0, RState.next, ScanGenerator.new, List.insertionSort,
      List.orderedInsert, mz_le, intensity_ge, List.enum, List.enumFrom,
      effective_min_mz, effective_max_mz, effective_ms1_peak_count,
      effective_ms2_peak_count, effective_ms2_per_ms1, params_seeded]
  · norm_num

/-- C5 amended: in every completed cycle, each MS2 scan's retention time
equals the cycle's MS1 retention time PLUS `0.5/60` minutes (the advance
`generate_ms1` performs before the MS2 scans are generated), not the MS1
retention time itself. -/
theorem ms2_retention_follows_advanced_ms1 (g : ScanGenerator)
    (p : SimulationParameters) (scans : List ScanMessage)
    (h : (produce_cycle g p).map Prod.fst = some scans) :
    ∃ ms1_scan rest, scans = ms1_scan :: rest ∧ ms1_scan.ms_order = 1 ∧
      ∀ s ∈ rest, s.ms_order = 2 ∧
        s.retention_time = ms1_scan.retention_time + 1/120 := by
  obtain ⟨⟨l, g'⟩, hcy, hfst⟩ := Option.map_eq_some'.mp h
  simp only [produce_cycle] at hcy
  split at hcy
  next => exact absurd hcy (by simp)
  next ms1_scan g1 hms1 =>
    split at hcy
    next => exact absurd hcy (by simp)
    next rest g2 hms2 =>
      obtain ⟨rfl, rfl⟩ := Prod.mk.injEq .. ▸ Option.some.inj hcy
      have h1 := generate_ms1_fields g _ _ _ ms1_scan g1 hms1
      refine ⟨ms1_scan, rest, by rw [← hfst], h1.1, ?_⟩
      intro s hs
      have hr := produce_ms2s_retention ms1_scan _ _ _ _ _ hms2 s hs
      exact ⟨hr.1, by rw [hr.2, h1.2.2, h1.2.1]⟩

/-- Witness for C5 amended at the concrete first cycle. -/
theorem ms2_retention_follows_advanced_ms1_witness :
    ∃ ms1_scan rest,
      ((produce_cycle (ScanGenerator.new oracle0) params_seeded).map
          Prod.fst).getD [] = ms1_scan :: rest ∧
      ms1_scan.ms_order = 1 ∧
      ∀ s ∈ rest, s.ms_order = 2 ∧
        s.retention_time = ms1_scan.retention_time + 1/120 :=
  ms2_retention_follows_advanced_ms1 (ScanGenerator.new oracle0) params_seeded _
    (by norm_num [produce_cycle, produce_ms2s, generate_ms1,
      generate_ms2, select_precursor, generate_spectrum, gen_base_peaks, gen_base_peak,
      gen_noise_peaks, gen_noise_peak, maybe_isotope, gen_range, gen_bool, gen_range_nat,
      gen_range_inclusive, normal_sample, normal_new_ok, calculate_aggregates, agg_loop,
      fract01_eval_zero, oracle0, RState.next, ScanGenerator.new, List.insertionSort,
      List.orderedInsert, mz_le, intensity_ge, List.enum, List.enumFrom,
      effective_min_mz, effective_max_mz, effective_ms1_peak_count,
      effective_ms2_peak_count, effective_ms2_per_ms1, params_seeded])

/-- The running TIC accumulator of `agg_loop` collects the list sum. -/
theorem agg_loop_tic : ∀ (l : List ℚ) (i mi : ℕ) (mv t : ℚ),
    (agg_loop l i mi mv t).2.2 = t + l.sum := by
  intro l
  induction l with
  | nil => intro i mi mv t; simp [agg_loop]
  | cons v rest ih =>
    intro i mi mv t
    simp only [agg_loop, List.sum_cons]
    split <;> rw [ih] <;> ring

/-- The seed of a max fold is below the fold's result. -/
theorem le_foldl_max : ∀ (l : List ℚ) (b : ℚ), b ≤ l.foldl max b := by
  intro l
  induction l with
  | nil => intro b; simp
  | cons v rest ih =>
    intro b
    calc b ≤ max b v := le_max_left b v
    _ ≤ rest.foldl max (max b v) := ih (max b v)

/-- Every member of the list is below the max fold's result. -/
theorem mem_le_foldl_max : ∀ (l : List ℚ) (b x : ℚ), x ∈ l → x ≤ l.foldl max b := by
  intro l
  induction l with
  | nil => intro b x hx; exact absurd hx (by simp)
  | cons v rest ih =>
    intro b x hx
    rcases List.mem_cons.mp hx with rfl | hx'
    · calc x ≤ max b x := le_max_right b x
      _ ≤ rest.foldl max (max b x) := le_foldl_max rest (max b x)
    · exact ih (max b v) x hx'

/-- Characterization of `agg_loop`'s running maximum and argmax index: the
maximum is the max fold over the remaining list seeded with the running
maximum, and the reported index is the first strict exceeder (offset from
the running position) or the carried index when nothing exceeds the seed. -/
theorem agg_loop_spec : ∀ (l : List ℚ) (i mi : ℕ) (mv t : ℚ),
    (agg_loop l i mi mv t).2.1 = l.foldl max mv ∧
    (mv < l.foldl max mv →
      ∃ j, j < l.length ∧ (agg_loop l i mi mv t).1 = i + j ∧
        l.getD j 0 = l.foldl max mv ∧
        ∀ j' < j, l.getD j' 0 < l.foldl max mv) ∧
    (¬ mv < l.foldl max mv →
      (agg_loop l i mi mv t).1 = mi ∧ l.foldl max mv = mv) := by
  intro l
  induction l with
  | nil =>
    intro i mi mv t
    refine ⟨rfl, fun hlt => absurd hlt (by simp), fun _ => ⟨rfl, rfl⟩⟩
  | cons v rest ih =>
    intro i mi mv t
    by_cases hv : mv < v
    · have hmax : max mv v = v := max_eq_right hv.le
      have hrec := ih (i + 1) i v (t + v)
      simp only [agg_loop, if_pos hv, List.foldl_cons, hmax, List.length_cons]
      by_cases hv2 : v < rest.foldl max v
      · obtain ⟨j, hj, hidx, hget, hlt⟩ := (hrec.2.1) hv2
        refine ⟨hrec.1, fun _ => ⟨j + 1, by omega, by omega, by simpa using hget, ?_⟩,
          fun hc => absurd (lt_of_lt_of_le hv (le_foldl_max rest v)) hc⟩
        intro j' hj'
        cases j' with
        | zero => simpa using hv2
        | succ j'' =>
          have := hlt j'' (by omega)
          simpa using this
      · obtain ⟨hidx, hfold⟩ := hrec.2.2 hv2
        refine ⟨hrec.1, fun _ => ⟨0, by omega, by omega, by simpa using hfold.symm ▸ rfl, ?_⟩,
          fun hc => absurd (lt_of_lt_of_le hv (le_foldl_max rest v)) hc⟩
        intro j' hj'
        omega
    · have hmax : max mv v = mv := max_eq_left (not_lt.mp hv)
      have hrec := ih (i + 1) mi mv (t + v)
      simp only [agg_loop, if_neg hv, List.foldl_cons, hmax, List.length_cons]
      constructor
      · exact hrec.1
      constructor
      · intro hlt
        obtain ⟨j, hj, hidx, hget, hpref⟩ := hrec.2.1 hlt
        refine ⟨j + 1, by omega, by omega, by simpa using hget, ?_⟩
        intro j' hj'
        cases j' with
        | zero =>
          have hvmv : v ≤ mv := not_lt.mp hv
          simpa using lt_of_le_of_lt hvmv hlt
        | succ j'' =>
          have := hpref j'' (by omega)
          simpa using this
      · intro hnlt
        exact hrec.2.2 hnlt

/-- C7: `calculate_aggregates` returns `(0,0,0)` on empty inputs; otherwise
the returned TIC is the sum of the intensities, the returned base-peak
intensity is the maximum intensity, and the returned base-peak m/z is the
m/z at the first index attaining that maximum. -/
theorem calculate_aggregates_spec (mz_values intensity_values : List ℚ)
    (hlen : mz_values.length = intensity_values.length) :
    (intensity_values = [] →
      calculate_aggregates mz_values intensity_values = (0, 0, 0)) ∧
    (intensity_values ≠ [] →
      (calculate_aggregates mz_values intensity_values).2.2 =
        intensity_values.sum ∧
      (∀ x ∈ intensity_values,
        x ≤ (calculate_aggregates mz_values intensity_values).2.1) ∧
      ∃ k, k < intensity_values.length ∧
        intensity_values.getD k 0 =
          (calculate_aggregates mz_values intensity_values).2.1 ∧
        (∀ j < k, intensity_values.getD j 0 <
          (calculate_aggregates mz_values intensity_values).2.1) ∧
        (calculate_aggregates mz_values intensity_values).1 =
          mz_values.getD k 0) := by
  constructor
  · intro h
    subst h
    have hmz : mz_values = [] := by
      cases mz_values with
      | nil => rfl
      | cons b t => simp at hlen
    subst hmz
    rfl
  · intro hne
    obtain ⟨a, rest, rfl⟩ : ∃ a rest, intensity_values = a :: rest := by
      cases intensity_values with
      | nil => exact absurd rfl hne
      | cons a rest => exact ⟨a, rest, rfl⟩
    obtain ⟨b, mzrest, rfl⟩ : ∃ b t, mz_values = b :: t := by
      cases mz_values with
      | nil => simp at hlen
      | cons b t => exact ⟨b, t, rfl⟩
    have hcalc : calculate_aggregates (b :: mzrest) (a :: rest) =
        ((b :: mzrest).getD (agg_loop rest 1 0 a (0 + a)).1 0,
         (agg_loop rest 1 0 a (0 + a)).2.1,
         (agg_loop rest 1 0 a (0 + a)).2.2) := by
      simp [calculate_aggregates, agg_loop, lt_irrefl]
    rw [hcalc]
    have hspec := agg_loop_spec rest 1 0 a (0 + a)
    refine ⟨?_, ?_, ?_⟩
    · rw [agg_loop_tic]
      simp only [List.sum_cons]
      ring
    · intro x hx
      rw [hspec.1]
      rcases List.mem_cons.mp hx with rfl | hx'
      · exact le_foldl_max rest x
      · exact mem_le_foldl_max rest a x hx'
    · rw [hspec.1]
      by_cases hlt : a < rest.foldl max a
      · obtain ⟨j, hj, hidx, hget, hpref⟩ := hspec.2.1 hlt
        refine ⟨j + 1, by simp only [List.length_cons]; omega,
          by simpa using hget, ?_, ?_⟩
        · intro j' hj'
          cases j' with
          | zero => simpa using hlt
          | succ j'' => simpa using hpref j'' (by omega)
        · rw [hidx, Nat.add_comm]
      · obtain ⟨hidx, hfold⟩ := hspec.2.2 hlt
        refine ⟨0, by simp, by simpa using hfold.symm, ?_, by rw [hidx]⟩
        intro j' hj'
        omega

/-- Witness for C7 at a concrete nonempty spectrum. -/
theorem calculate_aggregates_spec_witness :
    (calculate_aggregates [10, 20] [5, 3]).2.2 = List.sum [(5 : ℚ), 3] ∧
    calculate_aggregates [10, 20] [(5 : ℚ), 3] = (10, 5, 8) := by
  have h := calculate_aggregates_spec [10, 20] [5, 3] rfl
  refine ⟨(h.2 (by simp)).1, ?_⟩
  norm_num [calculate_aggregates, agg_loop]

/-- The m/z projection of the stable joint sort is non-decreasing. -/
theorem sorted_map_fst_insertionSort (l : List (ℚ × ℚ)) :
    List.Sorted (· ≤ ·) ((List.insertionSort mz_le l).map Prod.fst) :=
  (List.sorted_insertionSort mz_le l).map Prod.fst (fun _ _ hab => hab)

/-- Any spectrum returned by `generate_spectrum` has non-decreasing
m/z values. -/
theorem generate_spectrum_sorted_fst (n : ℕ) (mn mx mi ma : ℚ)
    (s s' : RState) (mzl il : List ℚ)
    (h : generate_spectrum n mn mx mi ma s = some ((mzl, il), s')) :
    List.Sorted (· ≤ ·) mzl := by
  simp only [generate_spectrum] at h
  split at h
  next => exact absurd h (by simp)
  next base s1 hbase =>
    split at h
    · split at h
      next => exact absurd h (by simp)
      next noise s2 hnoise =>
        obtain ⟨heq, _⟩ := Prod.mk.injEq .. ▸ Option.some.inj h
        obtain ⟨h1, _⟩ := Prod.mk.injEq .. ▸ heq
        rw [← h1]
        exact sorted_map_fst_insertionSort _
    · exact absurd h (by simp)

/-- Counterexample to C8: strict ascent fails.  With the reachable
parameters `params_dup_mz` (valid range `[100, 200)`, peak-count override
2, so both peaks come from the noise stage) there is an entropy draw
sequence — both noise m/z draws landing on 100 — under which the produced
MS1 scan has `mz_values = [100, 100]`: sorted, but not strictly
ascending.  (`rand`'s `gen_range(100.0..200.0)` can return the same value
twice.) -/
theorem mz_values_strictly_sorted_cex :
    effective_min_mz params_dup_mz = 100 ∧
    effective_max_mz params_dup_mz = 200 ∧
    effective_ms1_peak_count params_dup_mz = some 2 ∧
    ((generate_ms1 (ScanGenerator.new oracle0) (effective_min_mz params_dup_mz)
        (effective_max_mz params_dup_mz)
        (effective_ms1_peak_count params_dup_mz)).map
      (fun x => x.1.mz_values)) = some [100, 100] ∧
    ¬ List.Chain' (· < ·) [(100 : ℚ), 100] := by
  refine ⟨by norm_num [effective_min_mz, params_dup_mz],
    by norm_num [effective_max_mz, params_dup_mz],
    by norm_num [effective_ms1_peak_count, params_dup_mz, Int.toNat], ?_, by simp⟩
  norm_num [generate_ms1, generate_spectrum, gen_base_peaks, gen_base_peak,
    gen_noise_peaks, gen_noise_peak, maybe_isotope, gen_range, gen_bool, gen_range_nat,
    normal_sample, normal_new_ok, calculate_aggregates, agg_loop,
    fract01_eval_zero, oracle0, RState.next, ScanGenerator.new, List.insertionSort,
    List.orderedInsert, mz_le, effective_min_mz, effective_max_mz,
    effective_ms1_peak_count, params_dup_mz]

/-- C8 amended: for every produced `ScanMessage` — the raw spectrum pair,
an MS1 scan, or an MS2 scan — the `mz_values` vector is sorted ascending,
but only non-strictly: adjacent duplicates are possible when random m/z
draws collide. -/
theorem mz_values_sorted_nondecreasing :
    (∀ n mn mx mi ma s s' mzl il,
      generate_spectrum n mn mx mi ma s = some ((mzl, il), s') →
        List.Sorted (· ≤ ·) mzl) ∧
    (∀ g mn mx o scan,
      (generate_ms1 g mn mx o).map Prod.fst = some scan →
        List.Sorted (· ≤ ·) scan.mz_values) ∧
    (∀ g pmz pint o scan,
      (generate_ms2 g pmz pint o).map Prod.fst = some scan →
        List.Sorted (· ≤ ·) scan.mz_values) := by
  refine ⟨fun n mn mx mi ma s s' mzl il h =>
    generate_spectrum_sorted_fst n mn mx mi ma s s' mzl il h, ?_, ?_⟩
  · intro g mn mx o scan h
    obtain ⟨⟨scan', g'⟩, hms1, hfst⟩ := Option.map_eq_some'.mp h
    simp only [generate_ms1] at hms1
    split at hms1
    next => exact absurd hms1 (by simp)
    next pc s0 hpc =>
      split at hms1
      next => exact absurd hms1 (by simp)
      next mzl il s1 hspec =>
        obtain ⟨h1, _⟩ := Prod.mk.injEq .. ▸ Option.some.inj hms1
        have hsort := generate_spectrum_sorted_fst _ _ _ _ _ _ _ _ _ hspec
        have : scan' = scan := hfst
        rw [← this, ← h1]
        exact hsort
  · intro g pmz pint o scan h
    obtain ⟨⟨scan', g'⟩, hms2, hfst⟩ := Option.map_eq_some'.mp h
    simp only [generate_ms2] at hms2
    split at hms2
    next => exact absurd hms2 (by simp)
    next pc s0 hpc =>
      split at hms2
      next => exact absurd hms2 (by simp)
      next mzl il s1 hspec =>
        split at hms2
        next => exact absurd hms2 (by simp)
        next charge s2 hch =>
          obtain ⟨h1, _⟩ := Prod.mk.injEq .. ▸ Option.some.inj hms2
          have hsort := generate_spectrum_sorted_fst _ _ _ _ _ _ _ _ _ hspec
          have : scan' = scan := hfst
          rw [← this, ← h1]
          exact hsort

/-- Witness for C8 amended at the concrete duplicate trace. -/
theorem mz_values_sorted_nondecreasing_witness :
    List.Sorted (· ≤ ·) ([(100 : ℚ), 100]) := by
  have h :=
    mz_values_sorted_nondecreasing.2.1 (ScanGenerator.new oracle0) 100 200 (some 2)
      { scan_number := 1, ms_order := 1, retention_time := 0,
        mz_values := [100, 100], intensity_values := [10000, 10000],
        base_peak_mz := 100, base_peak_intensity := 10000,
        total_ion_current := 20000, precursor_mass := none,
        precursor_charge := none, precursor_intensity := none,
        isolation_width := none, collision_energy := none,
        fragmentation_type := 0, resolution_at_mz200 := 120000,
        mass_accuracy_ppm := 3 }
      (by norm_num [generate_ms1, generate_spectrum, gen_base_peaks, gen_base_peak,
        gen_noise_peaks, gen_noise_peak, maybe_isotope, gen_range, gen_bool, gen_range_nat,
        normal_sample, normal_new_ok, calculate_aggregates, agg_loop,
        fract01_eval_zero, oracle0, RState.next, ScanGenerator.new, List.insertionSort,
        List.orderedInsert, mz_le])
  exact h

/-- The conditional isotope stage emits at most one peak. -/
theorem maybe_isotope_length (b : Bool) (mz bi lo hi : ℚ) (s s' : RState)
    (l : List (ℚ × ℚ)) (h : maybe_isotope b mz bi lo hi s = some (l, s')) :
    l.length ≤ 1 := by
  simp only [maybe_isotope] at h
  split at h
  · split at h
    next => exact absurd h (by simp)
    next r s1 hr =>
      obtain ⟨rfl, rfl⟩ := Prod.mk.injEq .. ▸ Option.some.inj h
      simp
  · obtain ⟨rfl, rfl⟩ := Prod.mk.injEq .. ▸ Option.some.inj h
    simp

/-- One base-peak iteration emits between one and three peaks. -/
theorem gen_base_peak_length (mn mx mi ma : ℚ) (s s' : RState)
    (l : List (ℚ × ℚ)) (h : gen_base_peak mn mx mi ma s = some (l, s')) :
    1 ≤ l.length ∧ l.length ≤ 3 := by
  simp only [gen_base_peak] at h
  split at h
  next => exact absurd h (by simp)
  next base_mz s1 h1 =>
    split at h
    next => exact absurd h (by simp)
    next base_int s2 h2 =>
      split at h
      next => exact absurd h (by simp)
      next b1 s3 h3 =>
        split at h
        next => exact absurd h (by simp)
        next p1 s4 h4 =>
          split at h
          next => exact absurd h (by simp)
          next b2 s5 h5 =>
            split at h
            next => exact absurd h (by simp)
            next p2 s6 h6 =>
              obtain ⟨rfl, rfl⟩ := Prod.mk.injEq .. ▸ Option.some.inj h
              have l1 := maybe_isotope_length _ _ _ _ _ _ _ _ h4
              have l2 := maybe_isotope_length _ _ _ _ _ _ _ _ h6
              simp only [List.length_cons, List.length_append]
              omega

/-- The base-peak loop run `k` times emits at most `3k` peaks. -/
theorem gen_base_peaks_length (mn mx mi ma : ℚ) :
    ∀ (k : ℕ) (s s' : RState) (l : List (ℚ × ℚ)),
      gen_base_peaks k mn mx mi ma s = some (l, s') → l.length ≤ 3 * k := by
  intro k
  induction k with
  | zero =>
    intro s s' l h
    simp only [gen_base_peaks] at h
    obtain ⟨rfl, rfl⟩ := Prod.mk.injEq .. ▸ Option.some.inj h
    simp
  | succ k ih =>
    intro s s' l h
    simp only [gen_base_peaks] at h
    split at h
    next => exact absurd h (by simp)
    next p s1 hp =>
      split at h
      next => exact absurd h (by simp)
      next rest s2 hrest =>
        obtain ⟨rfl, rfl⟩ := Prod.mk.injEq .. ▸ Option.some.inj h
        have h1 := gen_base_peak_length _ _ _ _ _ _ _ hp
        have h2 := ih _ _ _ hrest
        simp only [List.length_append]
        omega

/-- The noise loop run `c` times emits exactly `c` peaks. -/
theorem gen_noise_peaks_length (mn mx mi : ℚ) :
    ∀ (c : ℕ) (s s' : RState) (l : List (ℚ × ℚ)),
      gen_noise_peaks c mn mx mi s = some (l, s') → l.length = c := by
  intro c
  induction c with
  | zero =>
    intro s s' l h
    simp only [gen_noise_peaks] at h
    obtain ⟨rfl, rfl⟩ := Prod.mk.injEq .. ▸ Option.some.inj h
    rfl
  | succ c ih =>
    intro s s' l h
    simp only [gen_noise_peaks] at h
    split at h
    next => exact absurd h (by simp)
    next p s1 hp =>
      split at h
      next => exact absurd h (by simp)
      next rest s2 hrest =>
        obtain ⟨rfl, rfl⟩ := Prod.mk.injEq .. ▸ Option.some.inj h
        simp [ih _ _ _ hrest]

/-- C9: whenever `generate_spectrum(N, min_mz, max_mz, ...)` with
`min_mz < max_mz` returns, the two vectors have equal length, exactly `N`:
the isotope stage emits at most `3·⌊N/5⌋ ≤ N` entries and the noise stage
fills the remainder to `N`, with no `usize` underflow in `N - len`. -/
theorem generate_spectrum_lengths (n : ℕ) (mn mx mi ma : ℚ) (s : RState)
    (mzl il : List ℚ) (_hrange : mn < mx)
    (h : (generate_spectrum n mn mx mi ma s).map Prod.fst = some (mzl, il)) :
    mzl.length = n ∧ il.length = n ∧
    ∀ base s1, gen_base_peaks (n / 5) mn mx mi ma s = some (base, s1) →
      base.length ≤ 3 * (n / 5) ∧ 3 * (n / 5) ≤ n := by
  obtain ⟨⟨⟨mzl', il'⟩, s'⟩, hsp, hfst⟩ := Option.map_eq_some'.mp h
  obtain ⟨rfl, rfl⟩ : mzl' = mzl ∧ il' = il := Prod.mk.injEq .. ▸ hfst
  simp only [generate_spectrum] at hsp
  split at hsp
  next => exact absurd hsp (by simp)
  next base s1 hbase =>
    split at hsp
    · split at hsp
      next => exact absurd hsp (by simp)
      next noise s2 hnoise =>
        obtain ⟨heq, _⟩ := Prod.mk.injEq .. ▸ Option.some.inj hsp
        obtain ⟨h1, h2⟩ := Prod.mk.injEq .. ▸ heq
        have hb := gen_base_peaks_length mn mx mi ma _ _ _ _ hbase
        have hb2 : 3 * (n / 5) ≤ n := by omega
        have hn := gen_noise_peaks_length mn mx mi _ _ _ _ hnoise
        have hlen : (List.insertionSort mz_le (base ++ noise)).length =
            base.length + noise.length := by
          rw [List.length_insertionSort, List.length_append]
        constructor
        · rw [← h1, List.length_map, hlen]
          omega
        constructor
        · rw [← h2, List.length_map, hlen]
          omega
        · intro base' s1' hbase'
          rw [hbase'] at hbase
          obtain ⟨rfl, rfl⟩ := Prod.mk.injEq .. ▸ Option.some.inj hbase
          exact ⟨hb, hb2⟩
    · exact absurd hsp (by simp)

/-- Witness for C9 at a concrete 7-peak spectrum. -/
theorem generate_spectrum_lengths_witness :
    (100 : ℚ) < 200 ∧
    List.length [(100 : ℚ), 100, 100, 100, 100, 100, 100] = 7 :=
  ⟨by norm_num,
    (generate_spectrum_lengths 7 100 200 4 8 { gen := oracle0, idx := 0 }
      [100, 100, 100, 100, 100, 100, 100]
      [4, 1/25, 1/25, 1/25, 1/25, 1/25, 1/25] (by norm_num)
      (by norm_num [generate_spectrum, gen_base_peaks, gen_base_peak,
        gen_noise_peaks, gen_noise_peak, maybe_isotope, gen_range, gen_bool,
        gen_range_nat, normal_sample, normal_new_ok, fract01_eval_zero, oracle0,
        RState.next, List.insertionSort, List.orderedInsert, mz_le])).1⟩

/-- C1 (the code never implements seeded determinism): the acquisition
pipeline is invariant under the configured `random_seed` — the seed is never
read — and two runs with IDENTICAL parameters (seed 42 ≠ 0 included) but
different process entropy produce different scan sequences, because
`start_acquisition` always resets the generator with
`StdRng::from_entropy()`. -/
theorem random_seed_ignored :
    (∀ (p : SimulationParameters) (seed : ℤ) (entropy : Oracle),
      acquisition_first_cycle entropy { p with random_seed := seed } =
        acquisition_first_cycle entropy p) ∧
    params_seeded.random_seed = 42 ∧ params_seeded.random_seed ≠ 0 ∧
    (acquisition_first_cycle oracle0 params_seeded).map
        (fun x => x.1.map (fun s => s.mz_values)) ≠
      (acquisition_first_cycle oracle_half params_seeded).map
        (fun x => x.1.map (fun s => s.mz_values)) := by
  refine ⟨?_, rfl, by decide, ?_⟩
  · intro p seed e
    cases p
    rfl
  · norm_num [acquisition_first_cycle, produce_cycle, produce_ms2s, generate_ms1,
      generate_ms2, select_precursor, generate_spectrum, gen_base_peaks, gen_base_peak,
      gen_noise_peaks, gen_noise_peak, maybe_isotope, gen_range, gen_bool, gen_range_nat,
      gen_range_inclusive, normal_sample, normal_new_ok, calculate_aggregates, agg_loop,
      fract01_eval_zero, fract01_eval_half, oracle0, oracle_half, RState.next,
      ScanGenerator.new, List.insertionSort, List.orderedInsert, mz_le, intensity_ge,
      List.enum, List.enumFrom, effective_min_mz, effective_max_mz,
      effective_ms1_peak_count, effective_ms2_peak_count, effective_ms2_per_ms1,
      params_seeded]

/-- With an inverted m/z range the base-peak loop panics on its very first
`gen_range` draw, whatever the RNG state. -/
theorem gen_base_peaks_empty_range (mn mx mi ma : ℚ) (hge : mx ≤ mn) :
    ∀ (k : ℕ) (s : RState), 0 < k → gen_base_peaks k mn mx mi ma s = none := by
  intro k s hk
  cases k with
  | zero => omega
  | succ k =>
    simp only [gen_base_peaks, gen_base_peak, gen_range, if_neg (not_lt.mpr hge)]

/-- With an inverted m/z range and no peak-count override, `generate_ms1`
panics inside `generate_spectrum` for every RNG state: the drawn peak count
is at least 500, so the base-peak loop runs and its first draw has an empty
range. -/
theorem generate_ms1_empty_range (g : ScanGenerator) (mn mx : ℚ) (hge : mx ≤ mn) :
    generate_ms1 g mn mx none = none := by
  have hbase := gen_base_peaks_empty_range mn mx 1000000 100000000 hge
    ((500 + g.random.gen.nat g.random.idx % 1500) / 5) (g.random.next) (by omega)
  simp only [generate_ms1, gen_range_nat, if_pos (show (500:ℕ) < 2000 by norm_num),
    generate_spectrum, hbase]

/-- C2 (the validation the spec requires does not exist): a start request
whose parameters carry `min_mz = 1000 ≥ 500 = max_mz` is accepted from
`Idle` — `success = true`, producer spawned, no `InvalidConfig` — and the
spawned producer's first MS1 generation then panics inside `gen_range`
(empty range `1000..500`) for EVERY entropy stream: spectrum generation
does run with the invalid parameters. -/
theorem invalid_mz_accepted_and_producer_panics :
    (start_acquisition σ_idle req_invalid_mz 7).1.success = true ∧
    (start_acquisition σ_idle req_invalid_mz 7).2.producer_running = true ∧
    req_invalid_mz.simulation = some params_invalid_mz ∧
    effective_min_mz params_invalid_mz = 1000 ∧
    effective_max_mz params_invalid_mz = 500 ∧
    ∀ entropy : Oracle, acquisition_first_cycle entropy params_invalid_mz = none := by
  refine ⟨rfl, rfl, rfl, by norm_num [effective_min_mz, params_invalid_mz],
    by norm_num [effective_max_mz, params_invalid_mz], ?_⟩
  intro e
  have hmin : effective_min_mz params_invalid_mz = 1000 := by
    norm_num [effective_min_mz, params_invalid_mz]
  have hmax : effective_max_mz params_invalid_mz = 500 := by
    norm_num [effective_max_mz, params_invalid_mz]
  have hovr : effective_ms1_peak_count params_invalid_mz = none := rfl
  have hnone := generate_ms1_empty_range (ScanGenerator.new e) 1000 500 (by norm_num)
  simp only [acquisition_first_cycle, produce_cycle, hmin, hmax, hovr, hnone]

/-- C3 (a reachable panic in the producer): with the spec-valid
configuration `min_mz = 50 < 2000 = max_mz` (both positive), accepted from
`Idle`, there is an entropy stream under which the first cycle's MS1 scan
has its top peak at m/z 50, `select_precursor` returns that peak, and
`generate_ms2(50, ...)` then panics: its fragment range is
`[100, 50·0.95) = [100, 47.5)`, which is empty.  The producer is not total
on the precursors `select_precursor` can return. -/
theorem low_min_mz_precursor_panics :
    (start_acquisition σ_idle req_low_min_mz 7).1.success = true ∧
    (start_acquisition σ_idle req_low_min_mz 7).2.producer_running = true ∧
    effective_min_mz params_low_min_mz = 50 ∧
    effective_max_mz params_low_min_mz = 2000 ∧
    (0 : ℚ) < 50 ∧ (50 : ℚ) < 2000 ∧
    acquisition_first_cycle oracle0 params_low_min_mz = none := by
  refine ⟨rfl, rfl, by norm_num [effective_min_mz, params_low_min_mz],
    by norm_num [effective_max_mz, params_low_min_mz], by norm_num, by norm_num, ?_⟩
  norm_num [acquisition_first_cycle, produce_cycle, produce_ms2s, generate_ms1,
    generate_ms2, select_precursor, generate_spectrum, gen_base_peaks, gen_base_peak,
    gen_noise_peaks, gen_noise_peak, maybe_isotope, gen_range, gen_bool, gen_range_nat,
    gen_range_inclusive, normal_sample, normal_new_ok, calculate_aggregates, agg_loop,
    fract01_eval_zero, oracle0, RState.next, ScanGenerator.new, List.insertionSort,
    List.orderedInsert, mz_le, intensity_ge, List.enum, List.enumFrom, Int.toNat,
    effective_min_mz, effective_max_mz, effective_ms1_peak_count,
    effective_ms2_peak_count, effective_ms2_per_ms1, params_low_min_mz]
